import Mathlib

/-!
Verification of the honcho metacognition pipeline engine.

This file gives a shallow embedding, in Lean 4, of the pipeline engine of the
honcho repository and proves its specified properties.  The embedded code is:

* `metacognition_sdk/chain.py` — `MetacognitionChain.__call__` (gating, the
  sequential step loop, the trailing `last_output = output` read);
* `honcho/architecture/manager.py` — `MetacognitionManager.on_user_message`,
  `execute_chains` and `get_agent_context`;
* `honcho/architecture/steps.py` — the step registry (`Step.register_step`,
  `Step.from_dict`) and the runtime behaviour of `InferenceStep`, `ToolStep`,
  `ReviseUserModelStep` and `QueryUserModelStep`;
* `honcho/architecture/messages.py` — `ConversationHistory.__repr__` and the
  seed-input construction of `on_user_message`;
* `honcho/core/client.py` — the run tracker (`Client.get_context` and the
  tracking assignment of `Client.create_message_for_session`);
* `metacognition_sdk/user_model.py` — `UserRewardModel.revise` / `query`;
* `honcho/user_model/adapters/in_memory.py` —
  `InMemoryUserModelStorageAdapter` together with its attribute resolution.

Modelling conventions: Python `async` functions are pure Lean functions (the
suspension points have no observable effect in a single pipeline run); a
raised Python exception is an `Except.error`; a Python `dict` is an
association list with in-place-update semantics (`dictSet` replaces the first
binding of the key, else appends, exactly the observable behaviour of
`dict.__setitem__` on the unique-key dictionaries the engine builds); an LLM
adapter is an opaque oracle `String → String`; the per-user context-model
store is its current text, threaded explicitly through every call.
-/

namespace Honcho

/-- A value stored in the chain inputs dictionary.  The seed map of
`on_user_message` mixes strings with the `turns_completed` integer, so the
embedded dictionary carries both. -/
inductive Val where
  | str (s : String)
  | int (n : Int)
deriving DecidableEq, Repr

/-- A Python `dict` keyed by strings, as an insertion-ordered association
list. -/
abbrev Dict (α : Type) := List (String × α)

/-- `d[k]` / `d.get(k)`: the value at the first binding of `k`. -/
def dictGet {α : Type} (m : Dict α) (k : String) : Option α :=
  (m.find? (fun p => p.1 == k)).map (fun p => p.2)

/-- `d[k] = v` / `d.update({k: v})`: replace the binding of `k` in place,
else append it, preserving insertion order. -/
def dictSet {α : Type} (m : Dict α) (k : String) (v : α) : Dict α :=
  match m with
  | [] => [(k, v)]
  | p :: rest => if p.1 = k then (k, v) :: rest else p :: dictSet rest k v

/-- `del d[k]`: remove the binding of `k`. -/
def dictDel {α : Type} (m : Dict α) (k : String) : Dict α :=
  m.filter (fun p => p.1 != k)

/-- The inputs map threaded through a chain invocation
(`inputs: dict[str, str]` in the source, which in fact also holds the
integer `turns_completed`). -/
abbrev Inputs := Dict Val

/-- The per-user context model text held behind the
`UserModelStorageAdapter` get/set contract. -/
abbrev Store := String

/-- A segment of a Python format-string template: literal text or a
`\x7bvar\x7d` placeholder. -/
inductive Seg where
  | lit (s : String)
  | var (k : String)
deriving DecidableEq, Repr

/-- A prompt template, pre-split at its placeholders. -/
abbrev Template := List Seg

/-- How `str.format` renders a substituted value. -/
def renderVal : Val → String
  | .str s => s
  | .int n => toString n

/-- A runtime error raised inside a pipeline run. -/
inductive RunErr where
  /-- `KeyError` from `str.format` on a template placeholder absent from the
  inputs map. -/
  | templateKeyError (k : String)
  /-- `UnboundLocalError` at `last_output = output` when the step loop never
  ran. -/
  | unboundLocal
  /-- `KeyError`/`TypeError` from `inputs["turns_completed"] <
  self.min_completed_turns` when the key is absent or not an integer. -/
  | turnsCompletedError
  /-- `IndexError` from `conversation_history[-1]` on an empty history. -/
  | indexError
deriving DecidableEq, Repr

/-- `template.format(**inputs)`: substitute every placeholder from the inputs
map; a placeholder absent from the map raises `KeyError`. -/
def formatTemplate (inputs : Inputs) : Template → Except RunErr String
  | [] => .ok ""
  | Seg.lit s :: rest => (formatTemplate inputs rest).map (fun r => s ++ r)
  | Seg.var k :: rest =>
    match dictGet inputs k with
    | none => .error (.templateKeyError k)
    | some v => (formatTemplate inputs rest).map (fun r => renderVal v ++ r)

/-- The runtime behaviour of a constructed step (`honcho/architecture/steps.py`).
`InferenceStep.__call__` formats its prompt and calls the LLM adapter;
`ToolStep.__call__` (and the revision/query steps built on it) formats its
prompt and calls the resolved callback, which may also touch the context
model store. -/
inductive StepKind where
  | inference (prompt : Template)
  | tool (prompt : Template) (callback : String → Store → String × Store)

/-- A step instance after construction: its configured name and its resolved
behaviour. -/
structure StepDef where
  name : String
  kind : StepKind

/-- `await step(inputs)` for one step, given the LLM oracle and the current
context-model store. -/
def runStep (llm : String → String) (step : StepDef) (inputs : Inputs)
    (store : Store) : Except RunErr (String × Store) :=
  match step.kind with
  | .inference prompt =>
    (formatTemplate inputs prompt).map (fun p => (llm p, store))
  | .tool prompt callback =>
    (formatTemplate inputs prompt).map (fun s => callback s store)

/-- The step loop of `MetacognitionChain.__call__`:

```python
for step in self.steps:
    output = await step(inputs)
    inputs.update({step.name: output})
last_output = output
return last_output
```

The `Option String` argument is the binding state of the local `output`;
reading it after an empty loop raises `UnboundLocalError`. -/
def runSteps (llm : String → String) :
    List StepDef → Inputs → Store → Option String →
    Except RunErr (String × Inputs × Store)
  | [], inputs, store, last =>
    match last with
    | none => .error .unboundLocal
    | some out => .ok (out, inputs, store)
  | step :: rest, inputs, store, _ =>
    match runStep llm step inputs store with
    | .error e => .error e
    | .ok (out, store1) =>
      runSteps llm rest (dictSet inputs step.name (.str out)) store1 (some out)

/-- Trigger events (`class Event(Enum)`). -/
inductive Event where
  | OnUserMessage
deriving DecidableEq, Repr

/-- Chain output kinds (`class Output(Enum)`). -/
inductive Output where
  | Void
  | AgentContext
deriving DecidableEq, Repr

/-- A loaded metacognition chain (`MetacognitionChain.__init__`). -/
structure MetacognitionChain where
  name : String
  event : Event
  output : Output
  min_completed_turns : Int
  default_output : String
  steps : List StepDef

/-- `MetacognitionChain.__call__`: gate on `turns_completed`, else run the
step loop.  The returned `Inputs` is the same dictionary object the caller
passed in, carrying any in-place updates the steps made. -/
def chainCall (llm : String → String) (c : MetacognitionChain)
    (inputs : Inputs) (store : Store) :
    Except RunErr (String × Inputs × Store) :=
  match dictGet inputs "turns_completed" with
  | some (Val.int n) =>
    if n < c.min_completed_turns then .ok (c.default_output, inputs, store)
    else runSteps llm c.steps inputs store none
  | _ => .error .turnsCompletedError

/-- The Manager state (`MetacognitionManager.__init__`): the chains loaded
for the single `OnUserMessage` event bucket, in declaration order, plus the
retained derived context and its configured default. -/
structure Manager where
  chains : List MetacognitionChain
  agent_context : Option String
  default_agent_context : Option String

/-- The loop body of `MetacognitionManager.execute_chains`: run each chain in
declaration order on the *same* inputs dictionary, overwriting the retained
`agent_context` with the result of every chain whose output kind is
`AgentContext`.  The accumulator is the current value of
`self.agent_context`. -/
def executeChains (llm : String → String) :
    List MetacognitionChain → Inputs → Store → Option String →
    Except RunErr (Option String × Inputs × Store)
  | [], inputs, store, ctx => .ok (ctx, inputs, store)
  | c :: rest, inputs, store, ctx =>
    match chainCall llm c inputs store with
    | .error e => .error e
    | .ok (result, inputs1, store1) =>
      executeChains llm rest inputs1 store1
        (if c.output = Output.AgentContext then some result else ctx)

/-- `MetacognitionManager.execute_chains` as a state transformer on the
Manager: a raised step error propagates uncaught. -/
def Manager.execute_chains (m : Manager) (llm : String → String)
    (chains : List MetacognitionChain) (inputs : Inputs) (store : Store) :
    Except RunErr (Manager × Inputs × Store) :=
  match executeChains llm chains inputs store m.agent_context with
  | .error e => .error e
  | .ok (ctx, inputs1, store1) =>
    .ok ({ m with agent_context := ctx }, inputs1, store1)

/-- Message roles (`honcho/architecture/messages.py`). -/
inductive Role where
  | User
  | Assistant
deriving DecidableEq, Repr

/-- One conversation message. -/
structure Message where
  role : Role
  content : String
deriving DecidableEq, Repr

/-- The literal role tag used by `ConversationHistory.__repr__`. -/
def roleLabel : Role → String
  | .User => "User"
  | .Assistant => "Assistant"

/-- Python `str.strip()`: drop leading and trailing whitespace. -/
def stripStr (s : String) : String :=
  String.mk
    (((s.data.dropWhile Char.isWhitespace).reverse.dropWhile
      Char.isWhitespace).reverse)

/-- `ConversationHistory.__repr__`: one `role: content` line per message,
then stripped. -/
def historyRepr (msgs : List Message) : String :=
  stripStr
    ((msgs.map (fun msg => roleLabel msg.role ++ ": " ++ msg.content ++ "\n")).foldl
      (fun a b => a ++ b) "")

/-- The seed inputs map built at the top of
`MetacognitionManager.on_user_message`; `none` when the history is empty and
`conversation_history[-1]` raises `IndexError`.  `turns_completed` is the
Python floor division `(len(messages) - 1) // 2`. -/
def seedInputs (msgs : List Message) : Option Inputs :=
  match msgs.getLast? with
  | none => none
  | some lastMsg =>
    some
      [("conversation_history", Val.str (historyRepr msgs)),
       ("prev_conversation_history", Val.str (historyRepr msgs.dropLast)),
       ("user_message", Val.str lastMsg.content),
       ("turns_completed", Val.int (Int.fdiv (Int.ofNat msgs.length - 1) 2))]

/-- `MetacognitionManager.on_user_message`: build the seed inputs from the
conversation history, then execute the chains registered for
`OnUserMessage`. -/
def Manager.on_user_message (m : Manager) (llm : String → String)
    (msgs : List Message) (store : Store) :
    Except RunErr (Manager × Inputs × Store) :=
  match seedInputs msgs with
  | none => .error .indexError
  | some inputs => m.execute_chains llm m.chains inputs store

/-- `MetacognitionManager.get_agent_context`: return the retained derived
context if set, else the configured default, and reset the retained value to
the default (consume-once). -/
def Manager.get_agent_context (m : Manager) : Option String × Manager :=
  (match m.agent_context with
   | some c => some c
   | none => m.default_agent_context,
   { m with agent_context := m.default_agent_context })

/-- The run-tracker state of `honcho/core/client.py`:
`self.processing_metacognitons`, the dictionary of running metacognitions
keyed by user id.  A tracked background task is modelled by its completed
outcome: the Manager state it produced, or the error `await task`
re-raises. -/
structure Client where
  processing_metacognitons : Dict (Except RunErr Manager)

/-- The tracking assignment at the end of
`Client.create_message_for_session`:
`self.processing_metacognitons[user_id] = (manager, task)` (the HTTP post
and the manager construction around it are external collaborators). -/
def Client.track_run (cl : Client) (user_id : String)
    (run : Except RunErr Manager) : Client :=
  ⟨dictSet cl.processing_metacognitons user_id run⟩

/-- `Client.get_context`: `None` immediately when no run is tracked for the
user; otherwise await the tracked task, read the tracked Manager's agent
context, delete the tracker entry and return the context. -/
def Client.get_context (cl : Client) (user_id : String) :
    Except RunErr (Option String × Client) :=
  match dictGet cl.processing_metacognitons user_id with
  | none => .ok (none, cl)
  | some (.error e) => .error e
  | some (.ok manager) =>
    .ok ((manager.get_agent_context).1,
      ⟨dictDel cl.processing_metacognitons user_id⟩)

/-- The opening brace character of a template placeholder. -/
def braceOpen : Char := Char.ofNat 123

/-- The closing brace character of a template placeholder. -/
def braceClose : Char := Char.ofNat 125

/-- Scanner splitting a format string at its placeholders.  The `Bool` says
whether we are inside a placeholder; the second list accumulates the current
segment's characters in reverse. -/
def parseTemplateAux : Bool → List Char → List Char → Template
  | false, [], acc =>
    if acc.isEmpty then [] else [Seg.lit (String.mk acc.reverse)]
  | false, ch :: cs, acc =>
    if ch = braceOpen then
      (if acc.isEmpty then [] else [Seg.lit (String.mk acc.reverse)]) ++
        parseTemplateAux true cs []
    else parseTemplateAux false cs (ch :: acc)
  | true, [], acc => [Seg.var (String.mk acc.reverse)]
  | true, ch :: cs, acc =>
    if ch = braceClose then
      Seg.var (String.mk acc.reverse) :: parseTemplateAux false cs []
    else parseTemplateAux true cs (ch :: acc)

/-- Split a configured prompt string into its template segments (the step
classes keep the raw string and re-split it inside `str.format`; the
observable behaviour is identical for the well-formed templates
configuration files contain). -/
def parseTemplate (s : String) : Template :=
  parseTemplateAux false s.data []

/-- A configuration-parsing failure from `Step.from_dict`
(`honcho/architecture/steps.py`).  The first two and the last constructor
are the source's `StepParsingException`; `validationError` is the pydantic
`ValidationError` that `step_class.model().parse_obj(step_dict)` raises on a
missing required field. -/
inductive StepParseErr where
  | typeNotSpecified
  | typeNotRecognized (t : String)
  | validationError (field : String)
  | callbackNotRegistered (tool : String)
deriving DecidableEq, Repr

/-- One entry of `Step.step_registry`: the registered type tag, the required
fields of the step class's pydantic model, and the constructor run after
validation. -/
structure StepClass where
  typeTag : String
  requiredFields : List String
  build : String → Dict String → Except StepParseErr StepDef

/-- `Step.from_dict`: reject a configuration whose `type` tag is absent or
not registered with a `StepParsingException`; validate the registered
class's required fields (pydantic `parse_obj`); then construct the step. -/
def step_from_dict (registry : List StepClass) (name : String)
    (step_dict : Dict String) : Except StepParseErr StepDef :=
  match dictGet step_dict "type" with
  | none => .error .typeNotSpecified
  | some t =>
    match registry.find? (fun c => c.typeTag == t) with
    | none => .error (.typeNotRecognized t)
    | some cls =>
      match cls.requiredFields.find? (fun f => (dictGet step_dict f).isNone) with
      | some f => .error (.validationError f)
      | none => cls.build name step_dict

/-- `UserRewardModel.reward_revision_prompt` rendered with `user_context`
and `insight` substituted (`metacognition_sdk/user_model.py`). -/
def renderRevisionPrompt (user_context insight : String) : String :=
  "You are trying to optimize the behaviour of an AI agent that is interacting with a user.\nYou are trying to do so by maintaining a paragraph of context describing the user\x27s goals in their interaction with the agent, in order to provide the agent the context it needs to most effectively help the user.\n\nHere is your current user context description:\n\"" ++
    user_context ++
    "\"\n\nHere is an insight about the user:\n\"" ++
    insight ++
    "\"\n\nRespond with a revised paragraph describing the user\x27s goals and context based on this insight. Try not to remove content when possible."

/-- `UserRewardModel.reward_query_prompt` rendered with `user_context` and
`query` substituted. -/
def renderQueryPrompt (user_context query : String) : String :=
  "You are trying to optimize the behaviour of an AI agent that is interacting with a user.\nYou are trying to do so by maintaining a paragraph of context describing the user\x27s goals in their interaction with the agent, in order to provide the agent the context it needs to most effectively help the user.\n\nHere is your current user context description:\n\"" ++
    user_context ++
    "\"\n\nYou have been given this query about the user:\n\"" ++
    query ++
    "\"\n\n(If the current user context paragraph doesn\x27t contain the information you need, stating that it might be helpful to ask the user a particular question to gain that information would be acceptable!)\n\nNow write a concise response to the query using the information in the user context description.\n"

/-- `UserRewardModel.revise`: ask the LLM for a revised context paragraph
and store it. -/
def userModelRevise (llm : String → String) (store : Store)
    (insight : String) : Store :=
  llm (renderRevisionPrompt store insight)

/-- `UserRewardModel.query`: answer a query from the stored context
paragraph; the store is unchanged. -/
def userModelQuery (llm : String → String) (store : Store)
    (query : String) : String :=
  llm (renderQueryPrompt store query)

/-- The registered `InferenceStep` class: type tag `inference`, required
field `prompt`. -/
def inferenceStepClass : StepClass where
  typeTag := "inference"
  requiredFields := ["prompt"]
  build := fun name step_dict =>
    match dictGet step_dict "prompt" with
    | some p => .ok { name := name, kind := .inference (parseTemplate p) }
    | none => .error (.validationError "prompt")

/-- The registered `ReviseUserModelStep` class: type tag
`user_model_revision`, required field `insight`; its callback revises the
context model and returns the insight unchanged. -/
def reviseStepClass (llm : String → String) : StepClass where
  typeTag := "user_model_revision"
  requiredFields := ["insight"]
  build := fun name step_dict =>
    match dictGet step_dict "insight" with
    | some p =>
      .ok { name := name,
            kind := .tool (parseTemplate p)
              (fun insight store => (insight, userModelRevise llm store insight)) }
    | none => .error (.validationError "insight")

/-- The registered `QueryUserModelStep` class: type tag `user_model_query`,
required field `query`; its callback answers from the context model and
leaves the store unchanged. -/
def queryStepClass (llm : String → String) : StepClass where
  typeTag := "user_model_query"
  requiredFields := ["query"]
  build := fun name step_dict =>
    match dictGet step_dict "query" with
    | some p =>
      .ok { name := name,
            kind := .tool (parseTemplate p)
              (fun q store => (userModelQuery llm store q, store)) }
    | none => .error (.validationError "query")

/-- The `Step.register_step` calls at the bottom of
`honcho/architecture/steps.py`: the registry after module load. -/
def builtinStepRegistry (llm : String → String) : List StepClass :=
  [inferenceStepClass, reviseStepClass llm, queryStepClass llm]

/-- `UserModelStorageAdapter.default_user_model`
(`honcho/user_model/interfaces.py`). -/
def default_user_model : String := "none, new user"

/-- A Python error raised by the storage adapter embedding. -/
inductive PyErr where
  | attributeError (name : String)
deriving DecidableEq, Repr

/-- A value produced by attribute lookup on the in-memory adapter. -/
inductive PyAttrVal where
  | str (s : String)
  | dict (d : Dict String)
deriving DecidableEq, Repr

/-- An `InMemoryUserModelStorageAdapter` instance
(`honcho/user_model/adapters/in_memory.py`): its instance attributes as set
by `__init__`.  The class attribute `user_models` (the shared in-memory
dictionary) is passed alongside. -/
structure InMemoryAdapter where
  user_id : String
  user_model : String
deriving DecidableEq, Repr

/-- `InMemoryUserModelStorageAdapter.__init__`:
`self.user_model = user_model or self.user_models.get(user_id, UserModelStorageAdapter.default_user_model)`
(Python `or` also falls through on an empty string). -/
def InMemoryAdapter.init (user_models : Dict String) (user_id : String)
    (user_model : Option String) : InMemoryAdapter :=
  { user_id := user_id,
    user_model :=
      match user_model with
      | some s =>
        if s = "" then (dictGet user_models user_id).getD default_user_model
        else s
      | none => (dictGet user_models user_id).getD default_user_model }

/-- Python attribute resolution on an adapter instance: the instance
attributes set by `__init__`, then the class attributes `user_models` and
`default_user_model`; any other name raises `AttributeError`. -/
def InMemoryAdapter.resolveAttr (a : InMemoryAdapter)
    (user_models : Dict String) (attr : String) : Except PyErr PyAttrVal :=
  if attr = "user_id" then .ok (.str a.user_id)
  else if attr = "user_model" then .ok (.str a.user_model)
  else if attr = "user_models" then .ok (.dict user_models)
  else if attr = "default_user_model" then .ok (.str default_user_model)
  else .error (.attributeError attr)

/-- `InMemoryUserModelStorageAdapter.get_user_model`:
`return self._user_models.get(self.user_id, self.default_user_model)` — note
the attribute read is `_user_models`, resolved through `resolveAttr`. -/
def InMemoryAdapter.get_user_model (a : InMemoryAdapter)
    (user_models : Dict String) : Except PyErr String :=
  match a.resolveAttr user_models "_user_models" with
  | .error e => .error e
  | .ok (.dict d) => .ok ((dictGet d a.user_id).getD default_user_model)
  | .ok (.str _) => .error (.attributeError "get")

/-- `InMemoryUserModelStorageAdapter.set_user_model`:
`self._user_models[self.user_id] = new_user_model` — the same `_user_models`
attribute read. -/
def InMemoryAdapter.set_user_model (a : InMemoryAdapter)
    (user_models : Dict String) (new_user_model : String) :
    Except PyErr (Dict String) :=
  match a.resolveAttr user_models "_user_models" with
  | .error e => .error e
  | .ok (.dict d) => .ok (dictSet d a.user_id new_user_model)
  | .ok (.str _) => .error (.attributeError "setitem")

theorem dictGet_dictSet_self {α : Type} (m : Dict α) (k : String) (v : α) :
    dictGet (dictSet m k v) k = some v := by
  induction m with
  | nil => simp [dictSet, dictGet, List.find?]
  | cons p rest ih =>
    by_cases h : p.1 = k
    · simp [dictSet, h, dictGet, List.find?]
    · simp only [dictSet, if_neg h, dictGet, List.find?] at ih ⊢
      have hb : (p.1 == k) = false := by
        simp [h]
      rw [hb]
      exact ih

theorem dictGet_dictDel_self {α : Type} (m : Dict α) (k : String) :
    dictGet (dictDel m k) k = none := by
  induction m with
  | nil => simp [dictDel, dictGet, List.find?]
  | cons p rest ih =>
    by_cases h : p.1 = k
    · simpa [dictDel, List.filter, h] using ih
    · simp only [dictDel, List.filter] at ih ⊢
      have hb : (p.1 != k) = true := by
        simp [h]
      rw [hb]
      simp only [dictGet, List.find?] at ih ⊢
      have hb2 : (p.1 == k) = false := by
        simp [h]
      rw [hb2]
      exact ih

theorem executeChains_append (llm : String → String)
    (xs ys : List MetacognitionChain) (inputs : Inputs) (store : Store)
    (ctx : Option String) :
    executeChains llm (xs ++ ys) inputs store ctx =
      match executeChains llm xs inputs store ctx with
      | .error e => .error e
      | .ok (ctx1, i1, s1) => executeChains llm ys i1 s1 ctx1 := by
  induction xs generalizing inputs store ctx with
  | nil => simp [executeChains]
  | cons c rest ih =>
    simp only [List.cons_append, executeChains]
    cases chainCall llm c inputs store with
    | error e => rfl
    | ok r =>
      obtain ⟨result, inputs1, store1⟩ := r
      simp [ih]

theorem executeChains_void_preserves (llm : String → String) :
    ∀ (xs : List MetacognitionChain) (inputs : Inputs) (store : Store)
      (ctx ctx1 : Option String) (i1 : Inputs) (s1 : Store),
      (∀ d ∈ xs, d.output = Output.Void) →
      executeChains llm xs inputs store ctx = .ok (ctx1, i1, s1) →
      ctx1 = ctx
  | [], inputs, store, ctx, ctx1, i1, s1, _, h => by
    simp only [executeChains] at h
    exact ((Prod.mk.injEq _ _ _ _).mp (Except.ok.inj h)).1.symm
  | c :: rest, inputs, store, ctx, ctx1, i1, s1, hvoid, h => by
    simp only [executeChains] at h
    cases hcall : chainCall llm c inputs store with
    | error e => rw [hcall] at h; exact absurd h (by simp)
    | ok r =>
      obtain ⟨result, inputs2, store2⟩ := r
      rw [hcall] at h
      have hout : c.output = Output.Void := hvoid c (by simp)
      rw [hout] at h
      simp only [reduceCtorEq, if_false, reduceIte] at h
      exact executeChains_void_preserves llm rest inputs2 store2 ctx ctx1 i1 s1
        (fun d hd => hvoid d (List.mem_cons_of_mem _ hd)) h

/-- C2: for every chain, if the seeded `turns_completed` value is strictly
less than the chain's `min_completed_turns`, invoking the chain returns
exactly its `default_output` with the inputs map and the context-model store
unchanged, and the result is the same whatever the chain's steps are — no
step executes and no step side effect, including a context-model write,
occurs. -/
theorem c2_gating (llm : String → String) (c : MetacognitionChain)
    (inputs : Inputs) (store : Store) (n : Int)
    (hturns : dictGet inputs "turns_completed" = some (Val.int n))
    (hlt : n < c.min_completed_turns) :
    chainCall llm c inputs store = .ok (c.default_output, inputs, store)
    ∧ ∀ steps2 : List StepDef,
        chainCall llm { c with steps := steps2 } inputs store =
          .ok (c.default_output, inputs, store) := by
  constructor
  · simp [chainCall, hturns, hlt]
  · intro steps2
    simp [chainCall, hturns, hlt]

/-- A gated chain used to witness C2: its single step would write to the
context-model store if it ran. -/
def c2Chain : MetacognitionChain where
  name := "thought"
  event := .OnUserMessage
  output := .AgentContext
  min_completed_turns := 5
  default_output := "DEFAULT"
  steps :=
    [{ name := "insight",
       kind := .tool [Seg.var "user_message"]
         (fun s store => (s, store ++ s)) }]

/-- Witness for C2 at a concrete gated chain: three completed turns against
a threshold of five returns the default output and leaves the store
untouched. -/
theorem c2_gating_witness :
    chainCall (fun s => s) c2Chain [("turns_completed", Val.int 3)] "S0" =
      .ok ("DEFAULT", [("turns_completed", Val.int 3)], "S0") :=
  (c2_gating (fun s => s) c2Chain [("turns_completed", Val.int 3)] "S0" 3
    rfl (by decide)).1

/-- C10: for every chain whose steps list is empty, invoking the chain with
`turns_completed ≥ min_completed_turns` does not return any string: the loop
body never binds the local `output`, so the trailing `last_output = output`
read raises `UnboundLocalError` instead of returning `default_output` or
anything else. -/
theorem c10_empty_steps_unbound_local (llm : String → String)
    (c : MetacognitionChain) (inputs : Inputs) (store : Store) (n : Int)
    (hsteps : c.steps = [])
    (hturns : dictGet inputs "turns_completed" = some (Val.int n))
    (hge : ¬ n < c.min_completed_turns) :
    chainCall llm c inputs store = .error RunErr.unboundLocal := by
  simp [chainCall, hturns, hge, hsteps, runSteps]

/-- A stepless chain used to witness C10. -/
def c10Chain : MetacognitionChain where
  name := "empty"
  event := .OnUserMessage
  output := .Void
  min_completed_turns := 0
  default_output := "D"
  steps := []

/-- Witness for C10 at a concrete stepless, ungated chain. -/
theorem c10_empty_steps_witness :
    chainCall (fun s => s) c10Chain [("turns_completed", Val.int 0)] "" =
      .error RunErr.unboundLocal :=
  c10_empty_steps_unbound_local (fun s => s) c10Chain
    [("turns_completed", Val.int 0)] "" 0 rfl rfl (by decide)

/-- C9: the claim says `get_user_model` returns the default sentinel for an
unknown user without error; the code instead raises
`AttributeError: _user_models` for every user, because the methods read the
attribute `_user_models` while `__init__` and the class body only define
`user_model`, `user_id` and `user_models`.  Evaluating the embedded code at
the unknown user `u1` with empty storage exhibits the error. -/
theorem c9_get_user_model_attribute_error :
    InMemoryAdapter.get_user_model (InMemoryAdapter.init [] "u1" none) [] =
      .error (PyErr.attributeError "_user_models")
    ∧ InMemoryAdapter.get_user_model (InMemoryAdapter.init [] "u1" none) [] ≠
      .ok default_user_model := by
  refine ⟨rfl, ?_⟩
  intro h
  simp [InMemoryAdapter.get_user_model, InMemoryAdapter.resolveAttr] at h

/-- C5: `get_context(user_id)` returns `None` immediately when no run is
tracked for the user; otherwise it returns the tracked Manager's agent
context and removes the tracker entry, so a second `get_context` for the
same user with no new tracked run returns `None`. -/
theorem c5_run_tracker (cl : Client) (user_id : String) :
    (dictGet cl.processing_metacognitons user_id = none →
      cl.get_context user_id = .ok (none, cl))
    ∧ (∀ manager : Manager,
        dictGet cl.processing_metacognitons user_id = some (.ok manager) →
        cl.get_context user_id =
          .ok ((manager.get_agent_context).1,
            Client.mk (dictDel cl.processing_metacognitons user_id))
        ∧ (Client.mk (dictDel cl.processing_metacognitons user_id)).get_context
            user_id =
          .ok (none, Client.mk (dictDel cl.processing_metacognitons user_id))) := by
  refine ⟨?_, ?_⟩
  · intro h
    simp [Client.get_context, h]
  · intro manager h
    refine ⟨?_, ?_⟩
    · simp [Client.get_context, h]
    · simp [Client.get_context, dictGet_dictDel_self]

/-- A completed run used to witness C5. -/
def c5Manager : Manager where
  chains := []
  agent_context := some "CTX"
  default_agent_context := some "D"

/-- A client tracking one completed run for user `u1`. -/
def c5Client : Client := ⟨[("u1", .ok c5Manager)]⟩

/-- Witness for C5: no tracked run for `u2` gives `None`; the tracked run
for `u1` yields its context and consumes the entry; asking again gives
`None`. -/
theorem c5_run_tracker_witness :
    c5Client.get_context "u2" = .ok (none, c5Client)
    ∧ c5Client.get_context "u1" = .ok (some "CTX", Client.mk [])
    ∧ (Client.mk []).get_context "u1" = .ok (none, Client.mk []) :=
  ⟨(c5_run_tracker c5Client "u2").1 rfl,
   ((c5_run_tracker c5Client "u1").2 c5Manager rfl).1,
   ((c5_run_tracker c5Client "u1").2 c5Manager rfl).2⟩

/-- C4: when two chains registered for the same event both produce
`AgentContext` output, the Manager executes them in declaration order (the
second chain runs on the state the first one left behind) and its retained
derived context after the run is the later-declared chain's result — an
overwrite, not a merge — so `get_agent_context` returns the later chain's
output. -/
theorem c4_last_write_wins (llm : String → String) (m : Manager)
    (cA cB : MetacognitionChain) (inputs i1 i2 : Inputs)
    (store s1 s2 : Store) (r1 r2 : String)
    (hchains : m.chains = [cA, cB])
    (_h1 : cA.output = Output.AgentContext)
    (h2 : cB.output = Output.AgentContext)
    (hcall1 : chainCall llm cA inputs store = .ok (r1, i1, s1))
    (hcall2 : chainCall llm cB i1 s1 = .ok (r2, i2, s2)) :
    m.execute_chains llm m.chains inputs store =
      .ok ({ m with agent_context := some r2 }, i2, s2)
    ∧ ({ m with agent_context := some r2 } : Manager).get_agent_context =
      (some r2, { m with agent_context := m.default_agent_context }) := by
  constructor
  · simp [Manager.execute_chains, hchains, executeChains, hcall1, hcall2, h2]
  · simp [Manager.get_agent_context]

/-- The earlier-declared derived-context chain of the C4 witness. -/
def c4ChainOne : MetacognitionChain where
  name := "first"
  event := .OnUserMessage
  output := .AgentContext
  min_completed_turns := 0
  default_output := ""
  steps := [{ name := "s1", kind := .inference [Seg.lit "one"] }]

/-- The later-declared derived-context chain of the C4 witness. -/
def c4ChainTwo : MetacognitionChain where
  name := "second"
  event := .OnUserMessage
  output := .AgentContext
  min_completed_turns := 0
  default_output := ""
  steps := [{ name := "s2", kind := .inference [Seg.lit "two"] }]

/-- A manager owning the two C4 chains in declaration order. -/
def c4Manager : Manager where
  chains := [c4ChainOne, c4ChainTwo]
  agent_context := none
  default_agent_context := some "DEF"

/-- Witness for C4: with an identity LLM the first chain yields `one`, the
second `two`, and the run retains (and `get_agent_context` returns) `two`. -/
theorem c4_last_write_wins_witness :
    c4Manager.execute_chains (fun s => s) c4Manager.chains
        [("turns_completed", Val.int 1)] "" =
      .ok ({ c4Manager with agent_context := some "two" },
        [("turns_completed", Val.int 1), ("s1", Val.str "one"),
         ("s2", Val.str "two")], "")
    ∧ ({ c4Manager with agent_context := some "two" } : Manager).get_agent_context =
      (some "two", { c4Manager with agent_context := some "DEF" }) :=
  c4_last_write_wins (fun s => s) c4Manager c4ChainOne c4ChainTwo
    [("turns_completed", Val.int 1)]
    [("turns_completed", Val.int 1), ("s1", Val.str "one")]
    [("turns_completed", Val.int 1), ("s1", Val.str "one"), ("s2", Val.str "two")]
    "" "" "" "one" "two" rfl rfl rfl rfl rfl

/-- C6: within one chain invocation each step's output is written into the
inputs map under that step's name before the next step runs: for a chain
with steps `A` then `B` where `B`'s template references the placeholder
named after `A`, `B`'s formatted input contains `A`'s literal output string,
and the chain's overall result is the last step's (`B`'s) output. -/
theorem c6_step_propagation (llm : String → String) (c : MetacognitionChain)
    (A B : StepDef) (p1 p2 : String) (inputs : Inputs) (store sA : Store)
    (outA : String) (n : Int)
    (hsteps : c.steps = [A, B])
    (hturns : dictGet inputs "turns_completed" = some (Val.int n))
    (hge : ¬ n < c.min_completed_turns)
    (hA : runStep llm A inputs store = .ok (outA, sA))
    (hB : B.kind = .inference [Seg.lit p1, Seg.var A.name, Seg.lit p2]) :
    chainCall llm c inputs store =
      .ok (llm (p1 ++ outA ++ p2),
        dictSet (dictSet inputs A.name (Val.str outA)) B.name
          (Val.str (llm (p1 ++ outA ++ p2))),
        sA) := by
  have hgate : chainCall llm c inputs store = runSteps llm [A, B] inputs store none := by
    simp [chainCall, hturns, hge, hsteps]
  rw [hgate]
  simp only [runSteps, hA]
  simp [runStep, hB, formatTemplate, dictGet_dictSet_self, renderVal,
    String.append_empty, String.append_assoc, Except.map]

/-- Step `A` of the C6 witness: a tool step producing the fact `FACT`. -/
def c6StepA : StepDef where
  name := "extract"
  kind := .tool [Seg.lit "q"] (fun _ store => ("FACT", store))

/-- Step `B` of the C6 witness: an inference step whose template references
the placeholder named after step `A`. -/
def c6StepB : StepDef where
  name := "summarize"
  kind := .inference [Seg.lit "pre ", Seg.var "extract", Seg.lit " post"]

/-- The two-step chain of the C6 witness. -/
def c6Chain : MetacognitionChain where
  name := "pipeline"
  event := .OnUserMessage
  output := .AgentContext
  min_completed_turns := 0
  default_output := ""
  steps := [c6StepA, c6StepB]

/-- Witness for C6: with an identity LLM, step `B` is formatted with step
`A`'s literal output `FACT` and the chain returns `B`'s output. -/
theorem c6_step_propagation_witness :
    chainCall (fun s => s) c6Chain [("turns_completed", Val.int 1)] "ST" =
      .ok ("pre FACT post",
        [("turns_completed", Val.int 1), ("extract", Val.str "FACT"),
         ("summarize", Val.str "pre FACT post")],
        "ST") :=
  c6_step_propagation (fun s => s) c6Chain c6StepA c6StepB "pre " " post"
    [("turns_completed", Val.int 1)] "ST" "ST" "FACT" 1 rfl rfl (by decide)
    rfl rfl

/-- The earlier chain of the C3 example: a void chain whose step `a`
produces `SECRET`. -/
def c3ChainOne : MetacognitionChain where
  name := "observer"
  event := .OnUserMessage
  output := .Void
  min_completed_turns := 0
  default_output := ""
  steps :=
    [{ name := "a",
       kind := .tool [Seg.lit "x"] (fun _ store => ("SECRET", store)) }]

/-- The later chain of the C3 example: its step `b` has a template
referencing the placeholder `a` — the entry the earlier chain's step added
to the inputs map. -/
def c3ChainTwo : MetacognitionChain where
  name := "reporter"
  event := .OnUserMessage
  output := .AgentContext
  min_completed_turns := 0
  default_output := ""
  steps := [{ name := "b", kind := .inference [Seg.var "a"] }]

/-- The seed inputs map of the C3 example. -/
def c3Seed : Inputs := [("turns_completed", Val.int 1)]

/-- C3 counterexample: the Manager does not give each chain a fresh copy of
the seed inputs — the later chain receives the very map the earlier chain
mutated.  Concretely, running `[c3ChainOne, c3ChainTwo]` equals running
`[c3ChainTwo]` on the mutated map, in which chain one's step entry `a` is
visible (it is absent from the seed), and chain two's template placeholder
`a` resolves to chain one's step output `SECRET`, which under the claimed
isolation would instead be a missing-key error. -/
theorem c3_counterexample :
    executeChains (fun s => s) [c3ChainOne, c3ChainTwo] c3Seed "" none =
      executeChains (fun s => s) [c3ChainTwo]
        (dictSet c3Seed "a" (Val.str "SECRET")) "" none
    ∧ dictGet (dictSet c3Seed "a" (Val.str "SECRET")) "a" =
      some (Val.str "SECRET")
    ∧ dictGet c3Seed "a" = none
    ∧ executeChains (fun s => s) [c3ChainOne, c3ChainTwo] c3Seed "" none =
      .ok (some "SECRET",
        [("turns_completed", Val.int 1), ("a", Val.str "SECRET"),
         ("b", Val.str "SECRET")], "") :=
  ⟨rfl, rfl, rfl, rfl⟩

/-- C3 (amended): when the Manager runs several chains for one event it
passes every chain the same inputs map — a later chain receives the map as
mutated by the earlier chains, so entries an earlier chain's steps added
under their step names are visible to it (the context-model store is shared
as well). -/
theorem c3_amended_shared_inputs (llm : String → String)
    (c : MetacognitionChain) (rest : List MetacognitionChain)
    (inputs : Inputs) (store s1 : Store) (ctx : Option String)
    (step : StepDef) (out : String) (n : Int)
    (hsteps : c.steps = [step])
    (hturns : dictGet inputs "turns_completed" = some (Val.int n))
    (hge : ¬ n < c.min_completed_turns)
    (hstep : runStep llm step inputs store = .ok (out, s1)) :
    executeChains llm (c :: rest) inputs store ctx =
      executeChains llm rest (dictSet inputs step.name (Val.str out)) s1
        (if c.output = Output.AgentContext then some out else ctx)
    ∧ dictGet (dictSet inputs step.name (Val.str out)) step.name =
      some (Val.str out) := by
  constructor
  · have hcall : chainCall llm c inputs store =
        .ok (out, dictSet inputs step.name (Val.str out), s1) := by
      have hgate : chainCall llm c inputs store =
          runSteps llm [step] inputs store none := by
        simp [chainCall, hturns, hge, hsteps]
      rw [hgate]
      simp only [runSteps, hstep]
    simp [executeChains, hcall]
  · exact dictGet_dictSet_self ..

/-- Witness for the amended C3 at the concrete two-chain example. -/
theorem c3_amended_shared_inputs_witness :
    executeChains (fun s => s) [c3ChainOne, c3ChainTwo] c3Seed "" none =
      executeChains (fun s => s) [c3ChainTwo]
        (dictSet c3Seed "a" (Val.str "SECRET")) "" none
    ∧ dictGet (dictSet c3Seed "a" (Val.str "SECRET")) "a" =
      some (Val.str "SECRET") :=
  c3_amended_shared_inputs (fun s => s) c3ChainOne [c3ChainTwo] c3Seed "" ""
    none ⟨"a", .tool [Seg.lit "x"] (fun _ store => ("SECRET", store))⟩
    "SECRET" 1 rfl rfl (by decide) rfl

/-- C8: if a step's template references an input key absent from the current
inputs map, formatting raises a missing-key error that aborts the enclosing
chain — no later step of that chain runs, whatever `more` contains — and
propagates uncaught through the Manager to the caller of
`on_user_message`. -/
theorem c8_template_error (llm : String → String) (m : Manager)
    (c : MetacognitionChain) (rest : List MetacognitionChain)
    (msgs : List Message) (inputs : Inputs) (store sA : Store)
    (A bad : StepDef) (more : List StepDef) (k : String) (outA : String)
    (n : Int)
    (hchains : m.chains = c :: rest)
    (hseed : seedInputs msgs = some inputs)
    (hturns : dictGet inputs "turns_completed" = some (Val.int n))
    (hge : ¬ n < c.min_completed_turns)
    (hsteps : c.steps = A :: bad :: more)
    (hA : runStep llm A inputs store = .ok (outA, sA))
    (hbad : bad.kind = .inference [Seg.var k])
    (hk : dictGet (dictSet inputs A.name (Val.str outA)) k = none) :
    chainCall llm c inputs store = .error (RunErr.templateKeyError k)
    ∧ m.on_user_message llm msgs store = .error (RunErr.templateKeyError k) := by
  have hchain : chainCall llm c inputs store =
      .error (RunErr.templateKeyError k) := by
    have hgate : chainCall llm c inputs store =
        runSteps llm (A :: bad :: more) inputs store none := by
      simp [chainCall, hturns, hge, hsteps]
    rw [hgate]
    simp only [runSteps, hA]
    simp [runStep, hbad, formatTemplate, hk, Except.map]
  refine ⟨hchain, ?_⟩
  simp [Manager.on_user_message, hseed, Manager.execute_chains, hchains,
    executeChains, hchain]

/-- The chain of the C8 witness: its first step succeeds and its second
step's template references the absent key `absent`. -/
def c8Chain : MetacognitionChain where
  name := "broken"
  event := .OnUserMessage
  output := .AgentContext
  min_completed_turns := 0
  default_output := ""
  steps :=
    [{ name := "first", kind := .tool [Seg.lit "x"] (fun _ store => ("OK", store)) },
     { name := "second", kind := .inference [Seg.var "absent"] }]

/-- A manager owning the C8 chain. -/
def c8Manager : Manager where
  chains := [c8Chain]
  agent_context := none
  default_agent_context := none

/-- The one-message conversation history of the C8 witness. -/
def c8History : List Message := [{ role := Role.User, content := "hello" }]

/-- Witness for C8: the missing-key error surfaces from the chain and from
`on_user_message` at a concrete history. -/
theorem c8_template_error_witness :
    chainCall (fun s => s) c8Chain
        [("conversation_history", Val.str "User: hello"),
         ("prev_conversation_history", Val.str ""),
         ("user_message", Val.str "hello"),
         ("turns_completed", Val.int 0)] "" =
      .error (RunErr.templateKeyError "absent")
    ∧ c8Manager.on_user_message (fun s => s) c8History "" =
      .error (RunErr.templateKeyError "absent") :=
  c8_template_error (fun s => s) c8Manager c8Chain [] c8History
    [("conversation_history", Val.str "User: hello"),
     ("prev_conversation_history", Val.str ""),
     ("user_message", Val.str "hello"),
     ("turns_completed", Val.int 0)] "" ""
    ⟨"first", .tool [Seg.lit "x"] (fun _ store => ("OK", store))⟩
    ⟨"second", .inference [Seg.var "absent"]⟩ [] "absent" "OK" 0
    rfl rfl rfl (by decide) rfl rfl rfl rfl

/-- C1: after a run in which a chain with `AgentContext` output completed
its steps with final loop output `r` (with only void chains after it), the
Manager retains `r`; the first `get_agent_context` call returns `r` and
resets the retained value to the configured default, so a second
consecutive call without an intervening run returns the default agent
context. -/
theorem c1_consume_once (llm : String → String) (m : Manager)
    (pre post : List MetacognitionChain) (c : MetacognitionChain)
    (inputs i0 i1 i2 : Inputs) (store s0 s1 s2 : Store)
    (ctxPre ctxPost : Option String) (r : String) (n : Int)
    (hchains : m.chains = pre ++ c :: post)
    (hc : c.output = Output.AgentContext)
    (hpreRun : executeChains llm pre inputs store m.agent_context =
      .ok (ctxPre, i0, s0))
    (hturns : dictGet i0 "turns_completed" = some (Val.int n))
    (hge : ¬ n < c.min_completed_turns)
    (hsteps : runSteps llm c.steps i0 s0 none = .ok (r, i1, s1))
    (hpost : ∀ d ∈ post, d.output = Output.Void)
    (hpostRun : executeChains llm post i1 s1 (some r) = .ok (ctxPost, i2, s2)) :
    m.execute_chains llm m.chains inputs store =
      .ok ({ m with agent_context := some r }, i2, s2)
    ∧ ({ m with agent_context := some r } : Manager).get_agent_context =
      (some r, { m with agent_context := m.default_agent_context })
    ∧ (({ m with agent_context := m.default_agent_context } : Manager).get_agent_context).1 =
      m.default_agent_context := by
  have hcall : chainCall llm c i0 s0 = .ok (r, i1, s1) := by
    simp [chainCall, hturns, hge, hsteps]
  have hctx : ctxPost = some r :=
    executeChains_void_preserves llm post i1 s1 (some r) ctxPost i2 s2
      hpost hpostRun
  have hall : executeChains llm (pre ++ c :: post) inputs store
      m.agent_context = .ok (some r, i2, s2) := by
    rw [executeChains_append, hpreRun]
    simp only [executeChains, hcall, hc, if_pos]
    rw [hpostRun, hctx]
  refine ⟨?_, ?_, ?_⟩
  · simp [Manager.execute_chains, hchains, hall]
  · simp [Manager.get_agent_context]
  · cases hdef : m.default_agent_context <;>
      simp [Manager.get_agent_context, hdef]

/-- The derived-context chain of the C1 witness. -/
def c1Chain : MetacognitionChain where
  name := "context"
  event := .OnUserMessage
  output := .AgentContext
  min_completed_turns := 0
  default_output := ""
  steps := [{ name := "derive", kind := .inference [Seg.lit "prompt"] }]

/-- A manager owning just the C1 chain, with default agent context
`DEFAULT`. -/
def c1Manager : Manager where
  chains := [c1Chain]
  agent_context := none
  default_agent_context := some "DEFAULT"

/-- Witness for C1: after a run producing `CTX`, the first
`get_agent_context` returns `CTX` and the second returns `DEFAULT`. -/
theorem c1_consume_once_witness :
    c1Manager.execute_chains (fun _ => "CTX") c1Manager.chains
        [("turns_completed", Val.int 1)] "" =
      .ok ({ c1Manager with agent_context := some "CTX" },
        [("turns_completed", Val.int 1), ("derive", Val.str "CTX")], "")
    ∧ ({ c1Manager with agent_context := some "CTX" } : Manager).get_agent_context =
      (some "CTX", { c1Manager with agent_context := some "DEFAULT" })
    ∧ (({ c1Manager with agent_context := some "DEFAULT" } : Manager).get_agent_context).1 =
      some "DEFAULT" :=
  c1_consume_once (fun _ => "CTX") c1Manager [] [] c1Chain
    [("turns_completed", Val.int 1)] [("turns_completed", Val.int 1)]
    [("turns_completed", Val.int 1), ("derive", Val.str "CTX")]
    [("turns_completed", Val.int 1), ("derive", Val.str "CTX")]
    "" "" "" "" none (some "CTX") "CTX" 1
    rfl rfl rfl rfl (by decide) rfl (by simp) rfl

/-- C7: constructing a step from a configuration dictionary fails with a
parsing error — not a successfully built step — whenever the `type` tag is
absent or is not registered in the step registry; a step type registered
before load, given a correctly-shaped configuration (all its required
fields present and its constructor succeeding), is accepted. -/
theorem c7_registry_parsing (registry : List StepClass) (name : String)
    (step_dict : Dict String) :
    (dictGet step_dict "type" = none →
      step_from_dict registry name step_dict =
        .error StepParseErr.typeNotSpecified)
    ∧ (∀ t, dictGet step_dict "type" = some t →
        registry.find? (fun cls => cls.typeTag == t) = none →
        step_from_dict registry name step_dict =
          .error (StepParseErr.typeNotRecognized t))
    ∧ (∀ t cls step, dictGet step_dict "type" = some t →
        registry.find? (fun c2 => c2.typeTag == t) = some cls →
        (∀ f ∈ cls.requiredFields, (dictGet step_dict f).isSome) →
        cls.build name step_dict = .ok step →
        step_from_dict registry name step_dict = .ok step) := by
  refine ⟨?_, ?_, ?_⟩
  · intro h
    simp [step_from_dict, h]
  · intro t h hfind
    simp [step_from_dict, h, hfind]
  · intro t cls step h hfind hreq hbuild
    have hnone : cls.requiredFields.find?
        (fun f => (dictGet step_dict f).isNone) = none := by
      rw [List.find?_eq_none]
      intro f hf hcontra
      rw [Option.isNone_iff_eq_none] at hcontra
      have h2 := hreq f hf
      rw [hcontra] at h2
      simp at h2
    simp [step_from_dict, h, hfind, hnone, hbuild]

/-- A custom step class registered before load, used to witness C7. -/
def c7CustomClass : StepClass where
  typeTag := "sentiment"
  requiredFields := ["prompt"]
  build := fun name step_dict =>
    match dictGet step_dict "prompt" with
    | some p => .ok { name := name, kind := .inference (parseTemplate p) }
    | none => .error (.validationError "prompt")

/-- The step registry of the C7 witness: the built-in classes plus the
custom one. -/
def c7Registry : List StepClass :=
  builtinStepRegistry (fun s => s) ++ [c7CustomClass]

/-- Witness for C7: a configuration without `type` and one with an
unregistered tag are rejected with parsing errors; a correctly-shaped
configuration of the registered custom type is accepted. -/
theorem c7_registry_parsing_witness :
    step_from_dict c7Registry "s" [("prompt", "x")] =
      .error StepParseErr.typeNotSpecified
    ∧ step_from_dict c7Registry "s" [("type", "bogus")] =
      .error (StepParseErr.typeNotRecognized "bogus")
    ∧ step_from_dict c7Registry "s"
        [("type", "sentiment"), ("prompt", "score")] =
      .ok { name := "s", kind := .inference [Seg.lit "score"] } :=
  ⟨(c7_registry_parsing c7Registry "s" [("prompt", "x")]).1 rfl,
   (c7_registry_parsing c7Registry "s" [("type", "bogus")]).2.1 "bogus" rfl rfl,
   (c7_registry_parsing c7Registry "s"
      [("type", "sentiment"), ("prompt", "score")]).2.2 "sentiment"
     c7CustomClass { name := "s", kind := .inference [Seg.lit "score"] }
     rfl rfl (by decide) rfl⟩

end Honcho
